import Mathlib

/-!
Shallow embedding of `compoctl` (a docker-compose wrapper) and proofs about
its `apply`, `backup` and `restore` orchestration commands.

The embedding models each command as a pure function from an environment
(filesystem facts, discovered container data, exit codes of external
commands) to a trace of externally visible actions together with an
`Except` result: `Except.error` models an uncaught `cli2.Cli2Exception`
(or Python `KeyError`), which makes the process exit non-zero.

String operations mirror Python semantics: `strSplit` is `str.split(sep)`
for a one-character separator, `strHas s pat` is Python's `pat in s`
substring test.
-/

namespace Compoctl

/-- Python `pat` is a leading segment of `l` (helper for the substring test). -/
def startsWithChars : List Char → List Char → Bool
  | [], _ => true
  | _ :: _, [] => false
  | p :: ps, c :: cs => p = c && startsWithChars ps cs

/-- Python `pat in s` over char lists: `pat` occurs contiguously in the list. -/
def hasSubChars (pat : List Char) : List Char → Bool
  | [] => pat.isEmpty
  | c :: cs => startsWithChars pat (c :: cs) || hasSubChars pat cs

/-- Python `s.split(sep)` for a single-character separator, over char lists. -/
def splitOnChar (sep : Char) : List Char → List (List Char)
  | [] => [[]]
  | c :: cs =>
    let r := splitOnChar sep cs
    if c = sep then [] :: r
    else (c :: r.headD []) :: r.tail

/-- Python substring test `pat in s`. -/
def strHas (s pat : String) : Bool := hasSubChars pat.data s.data

/-- Python `s.split(c)` for a one-character separator. -/
def strSplit (c : Char) (s : String) : List String :=
  (splitOnChar c s.data).map String.mk

/-- Python `s.split(c)[-1]`: the split list is never empty, so `[-1]` is its last. -/
def splitLast (c : Char) (s : String) : String := (strSplit c s).getLastD ""

/-- One service record of the merged compose configuration: the fields
`compoctl` reads (`image`, `volumes`, `labels`). `labels` is the YAML
mapping as an association list. -/
structure Service where
  image : String := ""
  volumes : List String := []
  labels : List (String × String) := []
deriving DecidableEq, Repr

/-- The parsed compose configuration: the `services` mapping in declaration
order. -/
structure Config where
  services : List (String × Service)
deriving DecidableEq, Repr

/-- An uncaught Python exception: `cli2.Cli2Exception msg`, or a `KeyError`
from a missing dict key. Either aborts the command and makes the process
exit non-zero. -/
inductive Err where
  | cli2 (msg : String)
  | keyError (key : String)
deriving DecidableEq, Repr

/-- Externally visible actions of a command run, in order. `compose argv rc`
is a `docker-compose` subprocess with the given arguments, which exited with
code `rc`; `dockerVolumeRm` is the direct `docker volume rm` subprocess of
`restore`; `rmtree` is `shutil.rmtree`; the remaining constructors are the
filesystem writes and yielded progress messages. -/
inductive Act where
  | message (s : String)
  | makeBackupDir
  | writeSnapshot (services : List (String × Service))
  | copySnapshot
  | addOption (opts : List String)
  | compose (argv : List String) (rc : Int)
  | rmtree (path : String)
  | dockerVolumeRm (vol : String) (rc : Int)
  | sleep (secs : Nat)
deriving DecidableEq, Repr

/-- Label lookup with Python truthiness: `service.get('labels', {}).get(key,
None)` followed by `if not cmd` — a missing key and an empty string are both
"no command". -/
def labelCmd (labels : List (String × String)) (key : String) : Option String :=
  match labels.lookup key with
  | none => none
  | some c => if c = "" then none else some c

/-- The backup-command label key. -/
def backupCmdKey : String := "io.yourlabs.backup.cmd"

/-- The restore-command label key. -/
def restoreCmdKey : String := "io.yourlabs.restore.cmd"

/-- The host-path part of a volume mount: `volume.split(':')[0]`. -/
def hostPart (volume : String) : String := (strSplit ':' volume).headD ""

/-- Environment of one `restore` run: whether the pinned snapshot file
exists, the current working directory, `shlex.split` (Python stdlib,
modelled as an oracle), and the exit code each external command would
return. -/
structure RestoreEnv where
  snapshotExists : Bool
  cwd : String
  shlex : String → List String
  rc : List String → Int

/-- The compose project name: `os.getcwd().split('/')[-1]`. -/
def RestoreEnv.project (env : RestoreEnv) : String := splitLast '/' env.cwd

/-- The volume handling of `restore` for one entry of a service's `volumes`
list (compoctl.py lines 202-218): skip when the host-path part contains
`backup`; `shutil.rmtree` it when it contains `/`; otherwise remove the
named volume `<project>_<service>` via `docker volume rm` (exit code not
checked). -/
def volumeActs (env : RestoreEnv) (project name volume : String) : List Act :=
  if strHas (hostPart volume) "backup" then []
  else if strHas (hostPart volume) "/" then [Act.rmtree (hostPart volume)]
  else
    [Act.dockerVolumeRm (project ++ "_" ++ name)
      (env.rc ["docker", "volume", "rm", project ++ "_" ++ name])]

/-- The actions of one labelled-service iteration of the `restore` loop up
to and including the individual `up -d <name>`: destroy the service's
volumes in order, then bring the one service up. -/
def upActs (env : RestoreEnv) (project name : String) (svc : Service) : List Act :=
  (svc.volumes.map (volumeActs env project name)).flatten
    ++ [Act.compose ["up", "-d", name] (env.rc ["up", "-d", name])]

/-- The settle sleep and the shell-word-split restore-command exec of one
labelled-service iteration of the `restore` loop. -/
def execActs (env : RestoreEnv) (name cmd : String) : List Act :=
  [Act.sleep 5,
   Act.compose (["exec", name] ++ env.shlex cmd) (env.rc (["exec", name] ++ env.shlex cmd))]

/-- The per-service loop of `restore` (compoctl.py lines 197-231): services
whose restore-command label is falsy are skipped; otherwise the service's
volumes are destroyed, the service is brought up alone (non-zero exit is
fatal), and after a 5 second sleep the shell-word-split restore command is
executed in it (non-zero exit is fatal). Returns the trace, and on success
whether any restore command ran. -/
def restoreLoop (env : RestoreEnv) (project : String) :
    List (String × Service) → List Act × Except Err Bool
  | [] => ([], Except.ok false)
  | (name, svc) :: rest =>
    match labelCmd svc.labels restoreCmdKey with
    | none => restoreLoop env project rest
    | some cmd =>
      if env.rc ["up", "-d", name] ≠ 0 then
        (upActs env project name svc, Except.error (Err.cli2 ("Start " ++ name ++ " non-0 !")))
      else if env.rc (["exec", name] ++ env.shlex cmd) ≠ 0 then
        (upActs env project name svc ++ execActs env name cmd,
         Except.error (Err.cli2 ("Restore " ++ name ++ " exited with non-0 !")))
      else
        match restoreLoop env project rest with
        | (t3, res) =>
          (upActs env project name svc ++ execActs env name cmd ++ t3,
           res.map (fun _ => true))

/-- The actions of `restore` before its per-service loop (compoctl.py lines
181-189): copy the snapshot into the working directory, register it as an
extra `-f` option, run `pull` then `down` — both exit codes unchecked. -/
def restorePre (env : RestoreEnv) : List Act :=
  [Act.copySnapshot, Act.addOption ["-f", "./docker-compose._restore.yml"],
   Act.compose ["pull"] (env.rc ["pull"]), Act.compose ["down"] (env.rc ["down"])]

/-- The actions of `restore` after its per-service loop (compoctl.py lines
236-238): `up -d`, `logs`, `ps` — exit codes unchecked. -/
def restorePost (env : RestoreEnv) : List Act :=
  [Act.compose ["up", "-d"] (env.rc ["up", "-d"]), Act.compose ["logs"] (env.rc ["logs"]),
   Act.compose ["ps"] (env.rc ["ps"])]

/-- The `restore` command (compoctl.py lines 158-238). `snapshot` is the
parsed content of the pinned snapshot file. Fails up front when the snapshot
file is absent; otherwise copies it into the working directory, registers it
as an extra `-f` option, runs `pull` and `down` (codes unchecked), runs the
per-service loop, and finishes with `up -d`, `logs`, `ps` (codes
unchecked). -/
def restore (env : RestoreEnv) (snapshot : Config) : List Act × Except Err Unit :=
  if env.snapshotExists = false then ([], Except.error (Err.cli2 "./backup not found !"))
  else
    match restoreLoop env env.project snapshot.services with
    | (lt, Except.error e) => (restorePre env ++ lt, Except.error e)
    | (lt, Except.ok ran) =>
      (restorePre env ++ lt
        ++ (if ran then [] else [Act.message "No restore cmd found: no data restore !"])
        ++ restorePost env, Except.ok ())

/-- Environment of one `backup` run: whether `./backup` exists, the
service-to-image map discovered by inspecting running containers (a Python
dict, so its keys are distinct), the resolved configuration, and exit
codes. -/
structure BackupEnv where
  backupDirExists : Bool
  discovered : List (String × String)
  cfg : Config
  rc : List String → Int

/-- Python `cfg['services'][name]['image'] = image` on a present key:
rewrite the image of the entry named `name`. -/
def setImage (services : List (String × Service)) (name image : String) :
    List (String × Service) :=
  services.map (fun p => if p.1 = name then (p.1, { p.2 with image := image }) else p)

/-- The image-pinning loop of `backup` (compoctl.py lines 136-137): for each
discovered `(service, image)` pair in order, `cfg['services'][service]['image']
= image` — a `KeyError` escapes when the service is not in the
configuration. -/
def pinImages (services : List (String × Service)) :
    List (String × String) → Except Err (List (String × Service))
  | [] => Except.ok services
  | (s, img) :: rest =>
    if services.any (fun p => p.1 = s) then pinImages (setImage services s img) rest
    else Except.error (Err.keyError s)

/-- The per-service loop of `backup` (compoctl.py lines 144-152): each
service with a truthy backup-command label gets one
`docker-compose exec <name> sh -c <cmd>` invocation; a non-zero exit is
fatal. Returns the trace and, on success, whether any backup command ran. -/
def backupLoop (env : BackupEnv) : List (String × Service) → List Act × Except Err Bool
  | [] => ([], Except.ok false)
  | (name, svc) :: rest =>
    match labelCmd svc.labels backupCmdKey with
    | none => backupLoop env rest
    | some cmd =>
      let argv := ["exec", name, "sh", "-c", cmd]
      let r := env.rc argv
      if r ≠ 0 then ([Act.compose argv r], Except.error (Err.cli2 "Backup exited with non-0 !"))
      else
        match backupLoop env rest with
        | (t, res) => (Act.compose argv r :: t, res.map (fun _ => true))

/-- The snapshot file path. -/
def snapshotPath : String := "./backup/docker-compose._restore.yml"

/-- The `./backup` directory creation of `backup` (compoctl.py lines
114-116): created only when absent. -/
def backupMkdir (env : BackupEnv) : List Act :=
  if env.backupDirExists then [] else [Act.message "Creating ./backup", Act.makeBackupDir]

/-- The actions of `backup` up to and including the snapshot write, given the
pinned services: create `./backup` if absent, then write the snapshot. -/
def backupPre (env : BackupEnv) (pinned : List (String × Service)) : List Act :=
  backupMkdir env
    ++ [Act.message ("Writing " ++ snapshotPath ++ " with hard coded images"),
        Act.writeSnapshot pinned]

/-- The `backup` command (compoctl.py lines 92-155): ensure `./backup`
exists, pin discovered images into the resolved configuration (`KeyError`
escapes on an unknown service), write the pinned snapshot, then run the
per-service backup loop, warning when no backup command was found. -/
def backup (env : BackupEnv) : List Act × Except Err Unit :=
  match pinImages env.cfg.services env.discovered with
  | Except.error e => (backupMkdir env, Except.error e)
  | Except.ok pinned =>
    match backupLoop env pinned with
    | (lt, Except.error e) => (backupPre env pinned ++ lt, Except.error e)
    | (lt, Except.ok ran) =>
      (backupPre env pinned ++ lt
        ++ (if ran then [] else [Act.message "No $backup_cmd found: no data backup !"]),
       Except.ok ())

/-- The fixed subcommand sequence of `apply` (compoctl.py lines 62-69). -/
def applyCmds : List (List String) := [["pull"], ["build"], ["down"], ["up", "-d"], ["logs"], ["ps"]]

/-- The loop of `apply`: run each subcommand in order, abort with a
`Cli2Exception` at the first non-zero exit code. -/
def applyGo (rc : List String → Int) : List (List String) → List Act × Except Err Unit
  | [] => ([], Except.ok ())
  | c :: rest =>
    let r := rc c
    if r ≠ 0 then
      ([Act.compose c r], Except.error (Err.cli2 ("Return code: " ++ toString r)))
    else
      let (t, res) := applyGo rc rest
      (Act.compose c r :: t, res)

/-- The `apply` command (compoctl.py lines 47-73). -/
def apply (rc : List String → Int) : List Act × Except Err Unit := applyGo rc applyCmds

/-- A generated passthrough verb (compoctl.py lines 275-287): it runs
`compose(name, *args)` and ignores the returned process object, so it never
raises regardless of the exit code. -/
def passthroughCmd (name : String) (args : List String) (rc : List String → Int) :
    List Act × Except Err Unit :=
  ([Act.compose (name :: args) (rc (name :: args))], Except.ok ())

/-- Whether the modelled process exits non-zero: an uncaught exception does,
a normal return exits zero. -/
def exitsNonZero (res : Except Err Unit) : Bool :=
  match res with
  | Except.ok _ => false
  | Except.error _ => true

/-- A container-exec invocation: `docker-compose exec ...`. -/
def isExecAct : Act → Bool
  | Act.compose argv _ => argv.headD "" = "exec"
  | _ => false

/-- A snapshot-file write. -/
def isSnapshotAct : Act → Bool
  | Act.writeSnapshot _ => true
  | _ => false

/-- A destructive action: recursive host-directory deletion or named-volume
removal. -/
def isDestructiveAct : Act → Bool
  | Act.rmtree _ => true
  | Act.dockerVolumeRm _ _ => true
  | _ => false

/-- A container start: `docker-compose up ...`. -/
def isUpAct : Act → Bool
  | Act.compose argv _ => argv.headD "" = "up"
  | _ => false

/-- Truthiness of the backup-command label of a service entry. -/
def hasBackupCmd (p : String × Service) : Bool := (labelCmd p.2.labels backupCmdKey).isSome

/-- The single exec action `backup` performs for a labelled service entry
when the command succeeds. -/
def backupExecAct (p : String × Service) : Act :=
  Act.compose ["exec", p.1, "sh", "-c", (labelCmd p.2.labels backupCmdKey).getD ""] 0

/-! ## Concrete environments used by the witnesses -/

/-- A restore environment over project directory `/home/staging` where every
external command succeeds. -/
def envStaging : RestoreEnv :=
  { snapshotExists := true, cwd := "/home/staging", shlex := fun s => [s], rc := fun _ => 0 }

/-- A restore environment with no pinned snapshot present. -/
def envNoSnap : RestoreEnv :=
  { snapshotExists := false, cwd := "/srv/app", shlex := fun s => [s], rc := fun _ => 1 }

/-! ## Claim theorems -/

/-- C1: for a service carrying a restore-command label, `restore` classifies
every volume mount by the text before the first `:`: a host part containing
the literal `backup` segment is never destroyed, otherwise a host part
containing a path separator is deleted recursively, and otherwise the mount
is removed as the named volume `<project>_<service>` where the project is
the base name of the working directory. -/
theorem restore_volume_classification (env : RestoreEnv) (name volume : String) :
    (strHas (hostPart volume) "backup" = true →
      volumeActs env env.project name volume = [])
    ∧ (strHas (hostPart volume) "backup" = false → strHas (hostPart volume) "/" = true →
      volumeActs env env.project name volume = [Act.rmtree (hostPart volume)])
    ∧ (strHas (hostPart volume) "backup" = false → strHas (hostPart volume) "/" = false →
      volumeActs env env.project name volume =
        [Act.dockerVolumeRm (splitLast '/' env.cwd ++ "_" ++ name)
          (env.rc ["docker", "volume", "rm", splitLast '/' env.cwd ++ "_" ++ name])]) := by
  refine ⟨fun h => ?_, fun h1 h2 => ?_, fun h1 h2 => ?_⟩
  · simp [volumeActs, h]
  · simp [volumeActs, h1, h2]
  · simp [volumeActs, RestoreEnv.project, h1, h2]

/-- Witness for C1 at the three mount shapes of the spec's example. -/
theorem restore_volume_classification_witness :
    volumeActs envStaging envStaging.project "postgres" "./backup/postgres:/backup" = []
    ∧ volumeActs envStaging envStaging.project "postgres" "./data:/var/lib/postgresql/data"
        = [Act.rmtree "./data"]
    ∧ volumeActs envStaging envStaging.project "postgres" "postgres-data:/var/lib/postgresql/data"
        = [Act.dockerVolumeRm "staging_postgres" 0] := by
  refine ⟨(restore_volume_classification envStaging "postgres"
    "./backup/postgres:/backup").1 (by decide), ?_, ?_⟩
  · have h := (restore_volume_classification envStaging "postgres"
      "./data:/var/lib/postgresql/data").2.1 (by decide) (by decide)
    rw [h]; decide
  · have h := (restore_volume_classification envStaging "postgres"
      "postgres-data:/var/lib/postgresql/data").2.2 (by decide) (by decide)
    rw [h]; decide

/-- C2: when no pinned snapshot file exists, `restore` fails with the
`Cli2Exception` raised at compoctl.py line 179 and its trace is empty — in
particular it contains no volume removal, no recursive deletion and no
container start. -/
theorem restore_no_snapshot_no_destruction (env : RestoreEnv) (snapshot : Config)
    (h : env.snapshotExists = false) :
    restore env snapshot = ([], Except.error (Err.cli2 "./backup not found !"))
    ∧ (restore env snapshot).1.filter isDestructiveAct = []
    ∧ (restore env snapshot).1.filter isUpAct = [] := by
  have h1 : restore env snapshot = ([], Except.error (Err.cli2 "./backup not found !")) := by
    unfold restore; rw [h]; rfl
  refine ⟨h1, ?_, ?_⟩ <;> rw [h1] <;> rfl

/-- Witness for C2 in a concrete snapshot-less environment. -/
theorem restore_no_snapshot_no_destruction_witness :
    restore envNoSnap ⟨[("db", { image := "pg" })]⟩
      = ([], Except.error (Err.cli2 "./backup not found !")) :=
  (restore_no_snapshot_no_destruction envNoSnap ⟨[("db", { image := "pg" })]⟩ rfl).1

/-- The `apply` loop on an all-zero exit-code environment runs every step. -/
theorem applyGo_all_zero (rc : List String → Int) :
    ∀ l : List (List String), (∀ c ∈ l, rc c = 0) →
      applyGo rc l = (l.map (fun c => Act.compose c 0), Except.ok ()) := by
  intro l
  induction l with
  | nil => intro _; rfl
  | cons c rest ih =>
    intro h
    have hc : rc c = 0 := h c (by simp)
    have hr := ih (fun x hx => h x (by simp [hx]))
    simp [applyGo, hc, hr]

/-- The `apply` loop aborts at the first step with a non-zero exit code and
never reaches the steps after it. -/
theorem applyGo_abort (rc : List String → Int) :
    ∀ (pre : List (List String)) (c : List String) (post : List (List String)),
      (∀ c' ∈ pre, rc c' = 0) → rc c ≠ 0 →
      applyGo rc (pre ++ c :: post) =
        (pre.map (fun x => Act.compose x 0) ++ [Act.compose c (rc c)],
         Except.error (Err.cli2 ("Return code: " ++ toString (rc c)))) := by
  intro pre
  induction pre with
  | nil => intro c post _ hc; simp [applyGo, hc]
  | cons p rest ih =>
    intro c post h hc
    have hp : rc p = 0 := h p (by simp)
    have hr := ih c post (fun x hx => h x (by simp [hx])) hc
    simp [applyGo, hp, hr]

/-- C7: `apply` drives the fixed sequence `pull`, `build`, `down`, `up -d`,
`logs`, `ps`; with all-zero exit codes every step runs, and with a non-zero
step the sequence aborts there — the trace ends at the failing step and the
following steps are never executed. -/
theorem apply_fixed_sequence_abort_on_failure :
    applyCmds = [["pull"], ["build"], ["down"], ["up", "-d"], ["logs"], ["ps"]]
    ∧ (∀ rc : List String → Int, (∀ c ∈ applyCmds, rc c = 0) →
        apply rc = (applyCmds.map (fun c => Act.compose c 0), Except.ok ()))
    ∧ (∀ (rc : List String → Int) (pre : List (List String)) (c : List String)
        (post : List (List String)), applyCmds = pre ++ c :: post →
        (∀ c' ∈ pre, rc c' = 0) → rc c ≠ 0 →
        apply rc = (pre.map (fun x => Act.compose x 0) ++ [Act.compose c (rc c)],
          Except.error (Err.cli2 ("Return code: " ++ toString (rc c))))) := by
  refine ⟨rfl, fun rc h => applyGo_all_zero rc applyCmds h, fun rc pre c post hd h hc => ?_⟩
  unfold apply
  rw [hd]
  exact applyGo_abort rc pre c post h hc

/-- Exit codes where only `down` fails. -/
def rcDownFails : List String → Int := fun c => if c = ["down"] then 1 else 0

/-- Witness for C7: with `down` failing, `apply` runs `pull`, `build`,
`down` and stops; `up -d`, `logs` and `ps` are absent from the trace. -/
theorem apply_fixed_sequence_abort_on_failure_witness :
    apply rcDownFails
      = ([Act.compose ["pull"] 0, Act.compose ["build"] 0, Act.compose ["down"] 1],
         Except.error (Err.cli2 "Return code: 1")) := by
  have h := apply_fixed_sequence_abort_on_failure.2.2 rcDownFails
    [["pull"], ["build"]] ["down"] [["up", "-d"], ["logs"], ["ps"]] rfl
    (by decide) (by decide)
  rw [h]; rfl

/-- A list whose length is not 1 differs from any singleton. -/
theorem length_ne_one_ne (a : List String) (b : String) (h : a.length ≠ 1) : a ≠ [b] := by
  intro heq; apply h; rw [heq]; rfl

/-- A service entry used in witnesses: a restore-labelled database. -/
def dbSvc : Service :=
  { image := "pg", volumes := ["d:/var"], labels := [(restoreCmdKey, "psql")] }

/-- C8: `restore` skips a service whose restore-command label is absent: the
per-service loop on the configuration with that service in front equals the
loop without it, and the whole `restore` run is unchanged — no volume
removal, host-directory deletion, individual `up` or `exec` happens for that
service. -/
theorem restore_skips_unlabelled_services (env : RestoreEnv) (project name : String)
    (svc : Service) (rest : List (String × Service))
    (h : svc.labels.lookup restoreCmdKey = none) :
    restoreLoop env project ((name, svc) :: rest) = restoreLoop env project rest
    ∧ restore env ⟨(name, svc) :: rest⟩ = restore env ⟨rest⟩ := by
  have hl : labelCmd svc.labels restoreCmdKey = none := by unfold labelCmd; rw [h]
  have h1 : ∀ p, restoreLoop env p ((name, svc) :: rest) = restoreLoop env p rest := by
    intro p
    conv_lhs => rw [restoreLoop]
    rw [hl]
  refine ⟨h1 project, ?_⟩
  unfold restore
  rw [h1 env.project]

/-- Witness for C8: a label-less `web` service in front of a labelled `db`
service changes nothing about the `restore` run. -/
theorem restore_skips_unlabelled_services_witness :
    restoreLoop envStaging "staging" [("web", { image := "w" }), ("db", dbSvc)]
      = restoreLoop envStaging "staging" [("db", dbSvc)] :=
  (restore_skips_unlabelled_services envStaging "staging" "web" { image := "w" }
    [("db", dbSvc)] rfl).1

/-- The volume actions do not depend on the exit codes of `pull` and `down`. -/
theorem volumeActs_rc_agree (env env' : RestoreEnv) (project name volume : String)
    (hrc : ∀ a : List String, a ≠ ["pull"] → a ≠ ["down"] → env'.rc a = env.rc a) :
    volumeActs env' project name volume = volumeActs env project name volume := by
  unfold volumeActs
  split_ifs
  · rfl
  · rfl
  · rw [hrc ["docker", "volume", "rm", project ++ "_" ++ name]
      (length_ne_one_ne _ _ (by simp)) (length_ne_one_ne _ _ (by simp))]

/-- The per-iteration action segments do not depend on the exit codes of
`pull` and `down`. -/
theorem upActs_rc_agree (env env' : RestoreEnv) (project name : String) (svc : Service)
    (hrc : ∀ a : List String, a ≠ ["pull"] → a ≠ ["down"] → env'.rc a = env.rc a) :
    upActs env' project name svc = upActs env project name svc := by
  unfold upActs
  rw [hrc ["up", "-d", name] (length_ne_one_ne _ _ (by simp)) (length_ne_one_ne _ _ (by simp))]
  rw [show volumeActs env' project name = volumeActs env project name from
    funext fun v => volumeActs_rc_agree env env' project name v hrc]

/-- The per-service restore loop is unchanged when only the exit codes of
`pull` and `down` differ between two environments. -/
theorem restoreLoop_rc_agree (env env' : RestoreEnv) (project : String)
    (hsh : env'.shlex = env.shlex)
    (hrc : ∀ a : List String, a ≠ ["pull"] → a ≠ ["down"] → env'.rc a = env.rc a) :
    ∀ l : List (String × Service), restoreLoop env' project l = restoreLoop env project l := by
  intro l
  induction l with
  | nil => rfl
  | cons p rest ih =>
    obtain ⟨name, svc⟩ := p
    have hup : env'.rc ["up", "-d", name] = env.rc ["up", "-d", name] :=
      hrc _ (length_ne_one_ne _ _ (by simp)) (length_ne_one_ne _ _ (by simp))
    have hex : ∀ cmd, env'.rc (["exec", name] ++ env.shlex cmd)
        = env.rc (["exec", name] ++ env.shlex cmd) := fun cmd =>
      hrc _
        (length_ne_one_ne _ _
          (by simp only [List.length_append, List.length_cons, List.length_nil]; omega))
        (length_ne_one_ne _ _
          (by simp only [List.length_append, List.length_cons, List.length_nil]; omega))
    have hu := upActs_rc_agree env env' project name svc hrc
    have hexa : execActs env' name = execActs env name := by
      funext cmd
      unfold execActs
      rw [hsh, hex cmd]
    cases hl : labelCmd svc.labels restoreCmdKey with
    | none => simp only [restoreLoop, hl, ih]
    | some cmd =>
      simp only [restoreLoop, hl]
      rw [hsh, hu, hup, hex cmd, hexa, ih]

/-- C10: once the snapshot exists, `restore` unconditionally starts with the
snapshot copy, the extra `-f` registration, `pull` and then `down`, before —
and regardless of — the per-service loop (so even for configurations with no
restore-command label), and the outcome of the run does not depend on the
exit codes of those `pull` and `down` invocations. -/
theorem restore_unconditional_pull_down (env : RestoreEnv) (snapshot : Config)
    (h : env.snapshotExists = true) :
    (∃ t, (restore env snapshot).1 = restorePre env ++ t)
    ∧ restorePre env = [Act.copySnapshot, Act.addOption ["-f", "./docker-compose._restore.yml"],
        Act.compose ["pull"] (env.rc ["pull"]), Act.compose ["down"] (env.rc ["down"])]
    ∧ (∀ env' : RestoreEnv, env'.snapshotExists = true → env'.shlex = env.shlex →
        (∀ a : List String, a ≠ ["pull"] → a ≠ ["down"] → env'.rc a = env.rc a) →
        env'.cwd = env.cwd →
        (restore env' snapshot).2 = (restore env snapshot).2) := by
  refine ⟨?_, rfl, fun env' h' hsh hrc hcwd => ?_⟩
  · unfold restore
    rw [h]
    rcases restoreLoop env env.project snapshot.services with ⟨lt, res⟩
    cases res with
    | error e => exact ⟨lt, by simp⟩
    | ok ran =>
      exact ⟨lt ++ (if ran then []
        else [Act.message "No restore cmd found: no data restore !"]) ++ restorePost env,
        by simp⟩
  · have hproj : env'.project = env.project := by unfold RestoreEnv.project; rw [hcwd]
    have hloop := restoreLoop_rc_agree env env' env.project hsh hrc snapshot.services
    unfold restore
    rw [h, h', hproj, hloop]
    rcases restoreLoop env env.project snapshot.services with ⟨lt, res⟩
    cases res <;> rfl

/-- Witness for C10: in a concrete environment where `pull` and `down` fail
but everything else succeeds, `restore` still starts with copy, `-f`
registration, `pull`, `down`, and still succeeds overall. -/
theorem restore_unconditional_pull_down_witness :
    (∃ t, (restore { envStaging with
        rc := fun a => if a = ["pull"] ∨ a = ["down"] then 1 else 0 } ⟨[]⟩).1
      = restorePre { envStaging with
        rc := fun a => if a = ["pull"] ∨ a = ["down"] then 1 else 0 } ++ t)
    ∧ (restore { envStaging with
        rc := fun a => if a = ["pull"] ∨ a = ["down"] then 1 else 0 } ⟨[]⟩).2
      = (restore envStaging ⟨[]⟩).2 := by
  refine ⟨(restore_unconditional_pull_down _ ⟨[]⟩ rfl).1, ?_⟩
  exact (restore_unconditional_pull_down envStaging ⟨[]⟩ rfl).2.2 _ rfl rfl
    (fun a h1 h2 => by
      show (if a = ["pull"] ∨ a = ["down"] then (1 : Int) else 0) = envStaging.rc a
      rw [if_neg (by simp [h1, h2])]
      rfl) rfl

/-! ## Backup lemmas -/

/-- What one pinned entry looks like: same name, labels and volumes as the
original entry, and the image replaced by the discovered one when the
service was discovered, kept otherwise. -/
def pinnedEntry (disc : List (String × String)) (s p : String × Service) : Prop :=
  p.1 = s.1 ∧ p.2.labels = s.2.labels ∧ p.2.volumes = s.2.volumes
    ∧ p.2.image = ((disc.lookup s.1).getD s.2.image)

/-- Association-list lookup misses keys that are not present. -/
theorem lookup_none_of_not_mem {β : Type} (s : String) :
    ∀ l : List (String × β), s ∉ l.map Prod.fst → l.lookup s = none := by
  intro l
  induction l with
  | nil => intro _; rfl
  | cons p rest ih =>
    intro h
    obtain ⟨k, v⟩ := p
    have h1 : s ≠ k := by
      intro he; exact h (by simp [he])
    have h2 : s ∉ rest.map Prod.fst := fun hm => h (by simp [hm])
    have hbeq : (s == k) = false := beq_eq_false_iff_ne.mpr h1
    simp [List.lookup, hbeq, ih h2]

/-- `setImage` only changes the image field of the selected entry. -/
theorem setImage_fst (services : List (String × Service)) (s img : String) :
    ∀ p ∈ setImage services s img, ∃ q ∈ services, p.1 = q.1 := by
  intro p hp
  obtain ⟨q, hq, rfl⟩ := List.mem_map.mp hp
  refine ⟨q, hq, ?_⟩
  by_cases hqs : q.1 = s <;> simp [hqs]

/-- When the image-pinning loop succeeds, every pinned entry keeps its name,
labels and volumes, and its image is the discovered one when discovered and
the original one otherwise. -/
theorem pinImages_ok_spec :
    ∀ (disc : List (String × String)) (services pinned : List (String × Service)),
      (disc.map Prod.fst).Nodup → pinImages services disc = Except.ok pinned →
      List.Forall₂ (pinnedEntry disc) services pinned := by
  intro disc
  induction disc with
  | nil =>
    intro services pinned _ h
    have he : services = pinned := by simpa [pinImages] using h
    subst he
    exact List.forall₂_same.mpr (fun x _ => by simp [pinnedEntry, List.lookup])
  | cons d rest ih =>
    intro services pinned hnd h
    obtain ⟨s, img⟩ := d
    simp only [List.map_cons, List.nodup_cons] at hnd
    obtain ⟨hnotin, hnd'⟩ := hnd
    rw [pinImages] at h
    by_cases hmem : services.any (fun p => p.1 = s) = true
    · rw [if_pos hmem] at h
      have ihh := ih (setImage services s img) pinned hnd' h
      rw [setImage, List.forall₂_map_left_iff] at ihh
      refine ihh.imp ?_
      intro a b hab
      by_cases has : a.1 = s
      · rw [if_pos has] at hab
        obtain ⟨hb1, hb2, hb3, hb4⟩ := hab
        refine ⟨hb1, hb2, hb3, ?_⟩
        rw [hb4]
        have hrest : rest.lookup s = none := lookup_none_of_not_mem s rest hnotin
        simp [List.lookup, has, hrest]
      · rw [if_neg has] at hab
        obtain ⟨hb1, hb2, hb3, hb4⟩ := hab
        refine ⟨hb1, hb2, hb3, ?_⟩
        rw [hb4]
        have hbeq : (a.1 == s) = false := beq_eq_false_iff_ne.mpr has
        simp [List.lookup, hbeq]
    · rw [if_neg hmem] at h
      cases h

/-- When some discovered service is missing from the configuration, the
image-pinning loop fails with an exception. -/
theorem pinImages_error_of_unknown :
    ∀ (disc : List (String × String)) (services : List (String × Service)) (s img : String),
      (s, img) ∈ disc → (∀ p ∈ services, p.1 ≠ s) →
      ∃ e, pinImages services disc = Except.error e := by
  intro disc
  induction disc with
  | nil => intro services s img h; cases h
  | cons d rest ih =>
    intro services s img hmem hserv
    obtain ⟨s', img'⟩ := d
    by_cases hany : services.any (fun p => p.1 = s') = true
    · rw [pinImages, if_pos hany]
      rcases List.mem_cons.mp hmem with heq | hrest
      · exfalso
        obtain ⟨p, hp, hps⟩ := List.any_eq_true.mp hany
        have hps' : p.1 = s' := by simpa using hps
        have hss : s = s' := congrArg Prod.fst heq
        exact hserv p hp (hps'.trans hss.symm)
      · refine ih (setImage services s' img') s img hrest ?_
        intro p hp
        obtain ⟨q, hq, hpq⟩ := setImage_fst services s' img' p hp
        rw [hpq]
        exact hserv q hq
    · rw [pinImages, if_neg hany]
      exact ⟨Err.keyError s', rfl⟩

/-- Pinning preserves the name and labels of every entry, in order. -/
theorem pin_preserves_name_labels {disc : List (String × String)}
    {services pinned : List (String × Service)}
    (h : List.Forall₂ (pinnedEntry disc) services pinned) :
    pinned.map (fun p => (p.1, p.2.labels)) = services.map (fun p => (p.1, p.2.labels)) := by
  induction h with
  | nil => rfl
  | cons hab _ ih => simp [ih, hab.1, hab.2.1]

/-- Two service lists that agree on names and labels produce the same
filtered backup exec actions. -/
theorem backup_filter_transfer :
    ∀ (l₁ l₂ : List (String × Service)),
      l₁.map (fun p => (p.1, p.2.labels)) = l₂.map (fun p => (p.1, p.2.labels)) →
      (l₁.filter hasBackupCmd).map backupExecAct = (l₂.filter hasBackupCmd).map backupExecAct := by
  intro l₁
  induction l₁ with
  | nil =>
    intro l₂ h
    cases l₂ with
    | nil => rfl
    | cons b t => simp at h
  | cons a t ih =>
    intro l₂ h
    cases l₂ with
    | nil => simp at h
    | cons b t₂ =>
      simp only [List.map_cons, List.cons.injEq, Prod.mk.injEq] at h
      obtain ⟨⟨h1, h2⟩, ht⟩ := h
      have hqe : hasBackupCmd a = hasBackupCmd b := by
        unfold hasBackupCmd; rw [h2]
      have hae : backupExecAct a = backupExecAct b := by
        unfold backupExecAct; rw [h1, h2]
      by_cases hq : hasBackupCmd b = true
      · simp [List.filter_cons, hqe, hq, hae, ih t₂ ht]
      · simp [List.filter_cons, hqe, hq, ih t₂ ht]

/-- With all external commands succeeding, the backup loop performs exactly
one exec per labelled service, in order, and reports whether any ran. -/
theorem backupLoop_all_zero (env : BackupEnv) (hrc : ∀ a, env.rc a = 0) :
    ∀ l : List (String × Service),
      backupLoop env l
        = ((l.filter hasBackupCmd).map backupExecAct, Except.ok (l.any hasBackupCmd)) := by
  intro l
  induction l with
  | nil => rfl
  | cons p rest ih =>
    obtain ⟨name, svc⟩ := p
    cases hl : labelCmd svc.labels backupCmdKey with
    | none =>
      simp only [backupLoop, hl, ih]
      simp [List.filter_cons, List.any_cons, hasBackupCmd, hl]
    | some cmd =>
      simp only [backupLoop, hl, hrc ["exec", name, "sh", "-c", cmd], ih]
      simp [List.filter_cons, List.any_cons, hasBackupCmd, backupExecAct, hl,
        hrc ["exec", name, "sh", "-c", cmd], Except.map]

/-- The actions before and including the snapshot write contain no exec, and
contain the snapshot write exactly once. -/
theorem backupPre_filters (env : BackupEnv) (pinned : List (String × Service)) :
    (backupPre env pinned).filter isExecAct = []
    ∧ (backupPre env pinned).filter isSnapshotAct = [Act.writeSnapshot pinned]
    ∧ Act.writeSnapshot pinned ∈ backupPre env pinned := by
  unfold backupPre backupMkdir
  by_cases hd : env.backupDirExists = true <;> simp [hd, isExecAct, isSnapshotAct]

/-- The backup loop trace never writes a snapshot. -/
theorem backupLoop_no_snapshot (env : BackupEnv) :
    ∀ l : List (String × Service), ∀ a ∈ (backupLoop env l).1, isSnapshotAct a = false := by
  intro l
  induction l with
  | nil => intro a ha; simp [backupLoop] at ha
  | cons p rest ih =>
    obtain ⟨name, svc⟩ := p
    intro a ha
    cases hl : labelCmd svc.labels backupCmdKey with
    | none =>
      rw [show backupLoop env ((name, svc) :: rest) = backupLoop env rest by
        conv_lhs => rw [backupLoop]
        rw [hl]] at ha
      exact ih a ha
    | some cmd =>
      by_cases hr : env.rc ["exec", name, "sh", "-c", cmd] ≠ 0
      · simp only [backupLoop, hl, if_pos hr] at ha
        simp at ha
        rw [ha]; rfl
      · rcases hb : backupLoop env rest with ⟨t, res⟩
        simp only [backupLoop, hl, if_neg hr, hb] at ha
        simp at ha
        rcases ha with ha | ha
        · rw [ha]; rfl
        · exact ih a (by rw [hb]; exact ha)

/-- Unfolding `backup` once the image pinning is known to succeed. -/
theorem backup_eq_of_pin (env : BackupEnv) (pinned : List (String × Service))
    (hpin : pinImages env.cfg.services env.discovered = Except.ok pinned) :
    backup env
      = match backupLoop env pinned with
        | (lt, Except.error e) => (backupPre env pinned ++ lt, Except.error e)
        | (lt, Except.ok ran) =>
          (backupPre env pinned ++ lt
            ++ (if ran then [] else [Act.message "No $backup_cmd found: no data backup !"]),
           Except.ok ()) := by
  unfold backup
  rw [hpin]

/-- The backup actions after the snapshot write: the per-service exec loop
followed, on success without any exec, by the warning message. -/
def backupTail (env : BackupEnv) (pinned : List (String × Service)) : List Act :=
  (backupLoop env pinned).1
    ++ (match (backupLoop env pinned).2 with
        | Except.error _ => []
        | Except.ok ran =>
          if ran then [] else [Act.message "No $backup_cmd found: no data backup !"])

/-- A backup environment whose discovered service is absent from the
configuration. -/
def envC3 : BackupEnv :=
  { backupDirExists := true, discovered := [("db", "pg:12")],
    cfg := ⟨[("web", { image := "w" })]⟩, rc := fun _ => 0 }

/-- A backup environment whose discovered service is present, with its
expected pinning result. -/
def envPin : BackupEnv :=
  { backupDirExists := true, discovered := [("db", "pg:12")],
    cfg := ⟨[("web", { image := "w" }), ("db", { image := "pg" })]⟩, rc := fun _ => 0 }

/-- The pinned services of `envPin`. -/
def pinnedPin : List (String × Service) :=
  [("web", { image := "w" }), ("db", { image := "pg:12" })]

/-- Counterexample to C3 as stated: with only service `web` in the resolved
configuration and a discovered `(db, pg:12)` pair, `backup` raises an
uncaught `KeyError` (compoctl.py line 137) — the unmatched pair does make
`backup()` fail. -/
theorem backup_unknown_discovered_service_fails :
    backup envC3 = ([], Except.error (Err.keyError "db")) := rfl

/-- C3 (amended): every discovered `(service, image)` pair whose service is
in the resolved configuration overwrites that service's image field, keeping
name, labels and volumes; services with no running container keep their
original image; the pinned configuration is what the snapshot write records;
and a discovered pair matching no configured service makes `backup` fail
with an uncaught exception. -/
theorem backup_image_pinning (env : BackupEnv) (pinned : List (String × Service))
    (hnd : (env.discovered.map Prod.fst).Nodup) :
    (pinImages env.cfg.services env.discovered = Except.ok pinned →
      List.Forall₂ (pinnedEntry env.discovered) env.cfg.services pinned
      ∧ Act.writeSnapshot pinned ∈ (backup env).1)
    ∧ (∀ s img, (s, img) ∈ env.discovered → (∀ p ∈ env.cfg.services, p.1 ≠ s) →
      ∃ e, (backup env).2 = Except.error e) := by
  constructor
  · intro hpin
    refine ⟨pinImages_ok_spec env.discovered env.cfg.services pinned hnd hpin, ?_⟩
    rw [backup_eq_of_pin env pinned hpin]
    rcases hb : backupLoop env pinned with ⟨t, res⟩
    cases res with
    | error e => exact List.mem_append_left _ (backupPre_filters env pinned).2.2
    | ok ran =>
      exact List.mem_append_left _ (List.mem_append_left _ (backupPre_filters env pinned).2.2)
  · intro s img hmem hserv
    obtain ⟨e, he⟩ := pinImages_error_of_unknown env.discovered env.cfg.services s img hmem hserv
    refine ⟨e, ?_⟩
    unfold backup
    rw [he]

/-- Witness for C3 (amended): the pinning part at `envPin` and the failure
part at `envC3`. -/
theorem backup_image_pinning_witness :
    (List.Forall₂ (pinnedEntry envPin.discovered) envPin.cfg.services pinnedPin
      ∧ Act.writeSnapshot pinnedPin ∈ (backup envPin).1)
    ∧ (∃ e, (backup envC3).2 = Except.error e) :=
  ⟨(backup_image_pinning envPin pinnedPin (by decide)).1 rfl,
   (backup_image_pinning envC3 [] (by decide)).2 "db" "pg:12" (by decide) (by decide)⟩

/-- A postgres-like service with only a backup-command label. -/
def svcC4 : Service :=
  { image := "pg", labels := [(backupCmdKey, "pg_dumpall -U postgres -f /backup/data.dump")] }

/-- A backup environment with one backup-labelled service. -/
def envC4 : BackupEnv :=
  { backupDirExists := true, discovered := [], cfg := ⟨[("db", svcC4)]⟩, rc := fun _ => 0 }

/-- C4 (code bug, compoctl.py line 149 versus line 226): at a concrete
configuration, the backup-command label is executed through a nested shell —
`exec db sh -c <cmd>` — while the restore-command label is executed with the
shell-word-split argument vector and no nested shell. The spec requires the
word-split form for both and flags the nested-shell variant as the bug. -/
theorem backup_exec_uses_nested_shell :
    (backup envC4).1.filter isExecAct
      = [Act.compose ["exec", "db", "sh", "-c", "pg_dumpall -U postgres -f /backup/data.dump"] 0]
    ∧ (restore envStaging ⟨[("db", dbSvc)]⟩).1.filter isExecAct
      = [Act.compose ["exec", "db", "psql"] 0] :=
  ⟨by decide, by decide⟩

/-- C6: when every external command succeeds, `backup` performs exactly one
exec per backup-labelled service of the configuration, in declaration order
with the labelled commands, writes exactly one snapshot file, and
succeeds — for every configuration size. -/
theorem backup_exec_count (env : BackupEnv) (pinned : List (String × Service))
    (hpin : pinImages env.cfg.services env.discovered = Except.ok pinned)
    (hnd : (env.discovered.map Prod.fst).Nodup)
    (hrc : ∀ a, env.rc a = 0) :
    (backup env).1.filter isExecAct
        = (env.cfg.services.filter hasBackupCmd).map backupExecAct
    ∧ ((backup env).1.filter isExecAct).length
        = (env.cfg.services.filter hasBackupCmd).length
    ∧ (backup env).1.filter isSnapshotAct = [Act.writeSnapshot pinned]
    ∧ (backup env).2 = Except.ok () := by
  have hloop := backupLoop_all_zero env hrc pinned
  have htrace : backup env
      = (backupPre env pinned ++ (pinned.filter hasBackupCmd).map backupExecAct
          ++ (if pinned.any hasBackupCmd then []
              else [Act.message "No $backup_cmd found: no data backup !"]),
         Except.ok ()) := by
    rw [backup_eq_of_pin env pinned hpin, hloop]
  have htransfer := backup_filter_transfer pinned env.cfg.services
    (pin_preserves_name_labels (pinImages_ok_spec env.discovered env.cfg.services pinned hnd hpin))
  have hex_filter : ((pinned.filter hasBackupCmd).map backupExecAct).filter isExecAct
      = (pinned.filter hasBackupCmd).map backupExecAct :=
    List.filter_eq_self.mpr (fun a ha => by
      obtain ⟨p, _, hp⟩ := List.mem_map.mp ha
      rw [← hp]; rfl)
  have hsnap_filter : ((pinned.filter hasBackupCmd).map backupExecAct).filter isSnapshotAct
      = [] :=
    List.filter_eq_nil_iff.mpr (fun a ha => by
      obtain ⟨p, _, hp⟩ := List.mem_map.mp ha
      rw [← hp]; simp [backupExecAct, isSnapshotAct])
  have hwarn_exec : ∀ b : Bool, ((if b then []
      else [Act.message "No $backup_cmd found: no data backup !"]).filter isExecAct) = [] := by
    intro b; cases b <;> rfl
  have hwarn_snap : ∀ b : Bool, ((if b then []
      else [Act.message "No $backup_cmd found: no data backup !"]).filter isSnapshotAct) = [] := by
    intro b; cases b <;> rfl
  have h1 : (backup env).1.filter isExecAct
      = (env.cfg.services.filter hasBackupCmd).map backupExecAct := by
    rw [htrace]
    simp only [List.filter_append, (backupPre_filters env pinned).1, hex_filter,
      hwarn_exec, List.nil_append, List.append_nil]
    exact htransfer
  refine ⟨h1, by rw [h1, List.length_map], ?_, by rw [htrace]⟩
  rw [htrace]
  simp only [List.filter_append, (backupPre_filters env pinned).2.1, hsnap_filter,
    hwarn_snap, List.nil_append, List.append_nil]

/-- A backup environment with one labelled and one unlabelled service. -/
def envC6 : BackupEnv :=
  { backupDirExists := true, discovered := [("db", "pg:12")],
    cfg := ⟨[("db", { image := "pg", labels := [(backupCmdKey, "pg_dumpall")] }),
            ("web", { image := "w" })]⟩,
    rc := fun _ => 0 }

/-- The pinned services of `envC6`. -/
def pinnedC6 : List (String × Service) :=
  [("db", { image := "pg:12", labels := [(backupCmdKey, "pg_dumpall")] }),
   ("web", { image := "w" })]

/-- Witness for C6 at a 2-service configuration with one labelled service. -/
theorem backup_exec_count_witness :
    (backup envC6).1.filter isExecAct
        = (envC6.cfg.services.filter hasBackupCmd).map backupExecAct
    ∧ ((backup envC6).1.filter isExecAct).length
        = (envC6.cfg.services.filter hasBackupCmd).length
    ∧ (backup envC6).1.filter isSnapshotAct = [Act.writeSnapshot pinnedC6]
    ∧ (backup envC6).2 = Except.ok () :=
  backup_exec_count envC6 pinnedC6 rfl (by decide) (fun a => rfl)

/-- C9: the snapshot write strictly precedes every exec of `backup`: the
trace decomposes into a head ending in the snapshot write that contains no
exec, followed by a tail that contains every exec and no snapshot write —
and the decomposition holds whether or not the exec loop fails, so a failing
backup still leaves the freshly pinned snapshot written. -/
theorem backup_snapshot_before_any_exec (env : BackupEnv) (pinned : List (String × Service))
    (hpin : pinImages env.cfg.services env.discovered = Except.ok pinned) :
    (backup env).1 = backupPre env pinned ++ backupTail env pinned
    ∧ (∀ a ∈ backupPre env pinned, isExecAct a = false)
    ∧ Act.writeSnapshot pinned ∈ backupPre env pinned
    ∧ (∀ a ∈ backupTail env pinned, isSnapshotAct a = false) := by
  refine ⟨?_, ?_, (backupPre_filters env pinned).2.2, ?_⟩
  · rw [backup_eq_of_pin env pinned hpin]
    unfold backupTail
    rcases hb : backupLoop env pinned with ⟨t, res⟩
    cases res <;> simp
  · intro a ha
    unfold backupPre backupMkdir at ha
    by_cases hd : env.backupDirExists = true
    · rw [if_pos hd] at ha
      simp at ha
      rcases ha with ha | ha <;> rw [ha] <;> rfl
    · rw [if_neg hd] at ha
      simp at ha
      rcases ha with ha | ha | ha | ha <;> rw [ha] <;> rfl
  · intro a ha
    unfold backupTail at ha
    rcases List.mem_append.mp ha with h | h
    · exact backupLoop_no_snapshot env pinned a h
    · rcases hres : (backupLoop env pinned).2 with e | ran
      · rw [hres] at h; simp at h
      · rw [hres] at h
        cases ran
        · simp at h; rw [h]; rfl
        · simp at h

/-- A backup environment where the only backup command fails. -/
def envC9 : BackupEnv :=
  { backupDirExists := false, discovered := [],
    cfg := ⟨[("db", { image := "pg", labels := [(backupCmdKey, "pg_dumpall")] })]⟩,
    rc := fun _ => 1 }

/-- Witness for C9 in an environment whose backup command fails: the
snapshot write is still in the head of the trace, and the run fails. -/
theorem backup_snapshot_before_any_exec_witness :
    ((backup envC9).1 = backupPre envC9 envC9.cfg.services
        ++ backupTail envC9 envC9.cfg.services
      ∧ Act.writeSnapshot envC9.cfg.services ∈ backupPre envC9 envC9.cfg.services)
    ∧ (backup envC9).2 = Except.error (Err.cli2 "Backup exited with non-0 !") :=
  ⟨⟨(backup_snapshot_before_any_exec envC9 envC9.cfg.services rfl).1,
    (backup_snapshot_before_any_exec envC9 envC9.cfg.services rfl).2.2.1⟩,
   rfl⟩

/-- Counterexample to C5 as stated: a passthrough verb whose orchestrated
command exits 1 still returns normally — the process exits zero. -/
theorem passthrough_ignores_exit_status :
    passthroughCmd "logs" [] (fun _ => 1) = ([Act.compose ["logs"] 1], Except.ok ())
    ∧ exitsNonZero (passthroughCmd "logs" [] (fun _ => 1)).2 = false :=
  ⟨rfl, rfl⟩

/-- The `apply` loop succeeds exactly when every step exits zero. -/
theorem applyGo_ok_iff (rc : List String → Int) :
    ∀ l : List (List String), (applyGo rc l).2 = Except.ok () ↔ ∀ c ∈ l, rc c = 0 := by
  intro l
  induction l with
  | nil => simp [applyGo]
  | cons c rest ih =>
    by_cases hc : rc c = 0
    · rcases hres : applyGo rc rest with ⟨t, res⟩
      rw [hres] at ih
      have h0 : ¬ (rc c ≠ 0) := not_not_intro hc
      simp [applyGo, if_neg h0, hres, hc, ih]
    · simp only [applyGo, if_pos hc]
      constructor
      · intro h; cases h
      · intro h; exact absurd (h c (by simp)) hc

/-- The modelled process exits zero exactly when the command returned
normally. -/
theorem exitsNonZero_false_iff (res : Except Err Unit) :
    exitsNonZero res = false ↔ res = Except.ok () := by
  cases res with
  | ok u => cases u; simp [exitsNonZero]
  | error e => simp [exitsNonZero]

/-- A mapped `Except` is a success only when the original was. -/
theorem except_map_ok {α β : Type} (f : α → β) (res : Except Err α) (b : β)
    (h : res.map f = Except.ok b) : ∃ a, res = Except.ok a := by
  cases res with
  | ok a => exact ⟨a, rfl⟩
  | error e => simp [Except.map] at h

/-- Every labelled service's `up` and restore exec succeeding makes the
restore loop succeed. -/
theorem restoreLoop_ok (env : RestoreEnv) (project : String) :
    ∀ l : List (String × Service),
      (∀ name svc, (name, svc) ∈ l →
        ∀ cmd, labelCmd svc.labels restoreCmdKey = some cmd →
          env.rc ["up", "-d", name] = 0
          ∧ env.rc (["exec", name] ++ env.shlex cmd) = 0) →
      ∃ b, (restoreLoop env project l).2 = Except.ok b := by
  intro l
  induction l with
  | nil => intro _; exact ⟨false, rfl⟩
  | cons p rest ih =>
    obtain ⟨name, svc⟩ := p
    intro h
    obtain ⟨b, hb⟩ := ih (fun nm sv hm => h nm sv (List.mem_cons_of_mem _ hm))
    cases hl : labelCmd svc.labels restoreCmdKey with
    | none =>
      refine ⟨b, ?_⟩
      rw [show restoreLoop env project ((name, svc) :: rest) = restoreLoop env project rest by
        conv_lhs => rw [restoreLoop]
        rw [hl]]
      exact hb
    | some cmd =>
      refine ⟨true, ?_⟩
      have hh := h name svc (List.mem_cons_self _ _) cmd hl
      have hexec : env.rc ("exec" :: name :: env.shlex cmd) = 0 := hh.2
      rcases hres : restoreLoop env project rest with ⟨t, res⟩
      rw [hres] at hb
      simp only [] at hb
      simp [restoreLoop, hl, hh.1, hexec, hres, hb, Except.map]

/-- Conversely, a successful restore loop means every labelled service's
`up` and restore exec exited zero — so a failing one makes the loop fail. -/
theorem restoreLoop_ok_rc (env : RestoreEnv) (project : String) :
    ∀ l : List (String × Service), ∀ b : Bool,
      (restoreLoop env project l).2 = Except.ok b →
      ∀ name svc, (name, svc) ∈ l →
        ∀ cmd, labelCmd svc.labels restoreCmdKey = some cmd →
          env.rc ["up", "-d", name] = 0
          ∧ env.rc (["exec", name] ++ env.shlex cmd) = 0 := by
  intro l
  induction l with
  | nil => intro b _ name svc hm; cases hm
  | cons p rest ih =>
    obtain ⟨name0, svc0⟩ := p
    intro b hok nm sv hm cmd hcmd
    cases hl : labelCmd svc0.labels restoreCmdKey with
    | none =>
      rw [show restoreLoop env project ((name0, svc0) :: rest) = restoreLoop env project rest by
        conv_lhs => rw [restoreLoop]
        rw [hl]] at hok
      rcases List.mem_cons.mp hm with heq | hm'
      · injection heq with h1 h2
        subst h1; subst h2
        rw [hl] at hcmd
        cases hcmd
      · exact ih b hok nm sv hm' cmd hcmd
    | some cmd0 =>
      by_cases hup : env.rc ["up", "-d", name0] = 0
      · by_cases hexec : env.rc (["exec", name0] ++ env.shlex cmd0) = 0
        · rcases hres : restoreLoop env project rest with ⟨t, res⟩
          have hexec0 : env.rc ("exec" :: name0 :: env.shlex cmd0) = 0 := hexec
          have hstep : (restoreLoop env project ((name0, svc0) :: rest)).2
              = res.map (fun _ => true) := by
            simp [restoreLoop, hl, hup, hexec0, hres]
          rw [hstep] at hok
          obtain ⟨b0, hb0⟩ := except_map_ok _ res b hok
          have hrest : (restoreLoop env project rest).2 = Except.ok b0 := by
            rw [hres]; exact hb0
          rcases List.mem_cons.mp hm with heq | hm'
          · injection heq with h1 h2
            subst h1; subst h2
            rw [hl] at hcmd
            injection hcmd with hc
            subst hc
            exact ⟨hup, hexec⟩
          · exact ih b0 hrest nm sv hm' cmd hcmd
        · exfalso
          have hexec0 : ¬ env.rc ("exec" :: name0 :: env.shlex cmd0) = 0 := hexec
          have hstep : (restoreLoop env project ((name0, svc0) :: rest)).2
              = Except.error (Err.cli2 ("Restore " ++ name0 ++ " exited with non-0 !")) := by
            simp [restoreLoop, hl, hup, hexec0]
          rw [hstep] at hok
          cases hok
      · exfalso
        have hstep : (restoreLoop env project ((name0, svc0) :: rest)).2
            = Except.error (Err.cli2 ("Start " ++ name0 ++ " non-0 !")) := by
          simp [restoreLoop, hl, hup]
        rw [hstep] at hok
        cases hok

/-- With the snapshot present, `restore` succeeds exactly when its
per-service loop does — the surrounding `pull`, `down`, `up -d`, `logs`,
`ps` never affect the outcome. -/
theorem restore_ok_iff_loop (env : RestoreEnv) (snapshot : Config)
    (h : env.snapshotExists = true) :
    ((restore env snapshot).2 = Except.ok ()
      ↔ ∃ b, (restoreLoop env env.project snapshot.services).2 = Except.ok b) := by
  rcases hres : restoreLoop env env.project snapshot.services with ⟨t, res⟩
  cases res <;> simp [restore, h, hres]

/-- Every labelled service's backup exec succeeding makes the backup loop
succeed. -/
theorem backupLoop_ok_of_rc (env : BackupEnv) :
    ∀ l : List (String × Service),
      (∀ name svc, (name, svc) ∈ l →
        ∀ cmd, labelCmd svc.labels backupCmdKey = some cmd →
          env.rc ["exec", name, "sh", "-c", cmd] = 0) →
      ∃ b, (backupLoop env l).2 = Except.ok b := by
  intro l
  induction l with
  | nil => intro _; exact ⟨false, rfl⟩
  | cons p rest ih =>
    obtain ⟨name, svc⟩ := p
    intro h
    obtain ⟨b, hb⟩ := ih (fun nm sv hm => h nm sv (List.mem_cons_of_mem _ hm))
    cases hl : labelCmd svc.labels backupCmdKey with
    | none =>
      refine ⟨b, ?_⟩
      rw [show backupLoop env ((name, svc) :: rest) = backupLoop env rest by
        conv_lhs => rw [backupLoop]
        rw [hl]]
      exact hb
    | some cmd =>
      refine ⟨true, ?_⟩
      have hh := h name svc (List.mem_cons_self _ _) cmd hl
      rcases hres : backupLoop env rest with ⟨t, res⟩
      rw [hres] at hb
      simp only [] at hb
      simp [backupLoop, hl, hh, hres, hb, Except.map]

/-- Conversely, a successful backup loop means every labelled service's
backup exec exited zero — so a failing one makes the loop fail. -/
theorem backupLoop_ok_rc (env : BackupEnv) :
    ∀ l : List (String × Service), ∀ b : Bool,
      (backupLoop env l).2 = Except.ok b →
      ∀ name svc, (name, svc) ∈ l →
        ∀ cmd, labelCmd svc.labels backupCmdKey = some cmd →
          env.rc ["exec", name, "sh", "-c", cmd] = 0 := by
  intro l
  induction l with
  | nil => intro b _ name svc hm; cases hm
  | cons p rest ih =>
    obtain ⟨name0, svc0⟩ := p
    intro b hok nm sv hm cmd hcmd
    cases hl : labelCmd svc0.labels backupCmdKey with
    | none =>
      rw [show backupLoop env ((name0, svc0) :: rest) = backupLoop env rest by
        conv_lhs => rw [backupLoop]
        rw [hl]] at hok
      rcases List.mem_cons.mp hm with heq | hm'
      · injection heq with h1 h2
        subst h1; subst h2
        rw [hl] at hcmd
        cases hcmd
      · exact ih b hok nm sv hm' cmd hcmd
    | some cmd0 =>
      by_cases hr : env.rc ["exec", name0, "sh", "-c", cmd0] = 0
      · rcases hres : backupLoop env rest with ⟨t, res⟩
        have hstep : (backupLoop env ((name0, svc0) :: rest)).2
            = res.map (fun _ => true) := by
          simp [backupLoop, hl, hr, hres]
        rw [hstep] at hok
        obtain ⟨b0, hb0⟩ := except_map_ok _ res b hok
        have hrest : (backupLoop env rest).2 = Except.ok b0 := by
          rw [hres]; exact hb0
        rcases List.mem_cons.mp hm with heq | hm'
        · injection heq with h1 h2
          subst h1; subst h2
          rw [hl] at hcmd
          injection hcmd with hc
          subst hc
          exact hr
        · exact ih b0 hrest nm sv hm' cmd hcmd
      · exfalso
        have hstep : (backupLoop env ((name0, svc0) :: rest)).2
            = Except.error (Err.cli2 "Backup exited with non-0 !") := by
          simp [backupLoop, hl, hr]
        rw [hstep] at hok
        cases hok

/-- Once image pinning succeeds, `backup` succeeds exactly when its exec
loop does. -/
theorem backup_ok_iff_loop (env : BackupEnv) (pinned : List (String × Service))
    (hpin : pinImages env.cfg.services env.discovered = Except.ok pinned) :
    ((backup env).2 = Except.ok () ↔ ∃ b, (backupLoop env pinned).2 = Except.ok b) := by
  rw [backup_eq_of_pin env pinned hpin]
  rcases hres : backupLoop env pinned with ⟨t, res⟩
  cases res <;> simp

/-- C5 (amended): a passthrough orchestrator verb always exits zero, even
when the underlying command fails; `restore` with no snapshot exits
non-zero; `apply` exits zero exactly when all its steps exit zero; with the
snapshot present, `restore` exits zero exactly when every labelled service's
individual `up` and restore exec exit zero — so a failing one exits
non-zero, while the statuses of `pull`, `down`, final `up`, `logs`, `ps`
never matter; and once pinning succeeds, `backup` exits zero exactly when
every labelled service's backup exec exits zero — so a failing backup exec
exits non-zero. -/
theorem process_exit_codes_amended :
    (∀ (name : String) (args : List String) (rc : List String → Int),
        (passthroughCmd name args rc).2 = Except.ok ())
    ∧ (∀ (env : RestoreEnv) (snapshot : Config), env.snapshotExists = false →
        exitsNonZero (restore env snapshot).2 = true)
    ∧ (∀ rc : List String → Int,
        (exitsNonZero (apply rc).2 = false ↔ ∀ c ∈ applyCmds, rc c = 0))
    ∧ (∀ (env : RestoreEnv) (snapshot : Config), env.snapshotExists = true →
        (exitsNonZero (restore env snapshot).2 = false ↔
          ∀ name svc, (name, svc) ∈ snapshot.services →
            ∀ cmd, labelCmd svc.labels restoreCmdKey = some cmd →
              env.rc ["up", "-d", name] = 0
              ∧ env.rc (["exec", name] ++ env.shlex cmd) = 0))
    ∧ (∀ (env : BackupEnv) (pinned : List (String × Service)),
        pinImages env.cfg.services env.discovered = Except.ok pinned →
        (exitsNonZero (backup env).2 = false ↔
          ∀ name svc, (name, svc) ∈ pinned →
            ∀ cmd, labelCmd svc.labels backupCmdKey = some cmd →
              env.rc ["exec", name, "sh", "-c", cmd] = 0)) := by
  refine ⟨fun name args rc => rfl, fun env snapshot h => ?_, fun rc => ?_,
    fun env snapshot h => ?_, fun env pinned hpin => ?_⟩
  · unfold restore; rw [h]; rfl
  · rw [exitsNonZero_false_iff]
    exact applyGo_ok_iff rc applyCmds
  · rw [exitsNonZero_false_iff, restore_ok_iff_loop env snapshot h]
    constructor
    · rintro ⟨b, hb⟩
      exact restoreLoop_ok_rc env env.project snapshot.services b hb
    · exact restoreLoop_ok env env.project snapshot.services
  · rw [exitsNonZero_false_iff, backup_ok_iff_loop env pinned hpin]
    constructor
    · rintro ⟨b, hb⟩
      exact backupLoop_ok_rc env pinned b hb
    · exact backupLoop_ok_of_rc env pinned

/-- Witness for C5 (amended) at concrete environments: a failing
passthrough still exits zero; missing snapshot exits non-zero; `apply` with
a failing `down` exits non-zero; an all-green restore exits zero; and a
backup whose only labelled exec fails exits non-zero. -/
theorem process_exit_codes_amended_witness :
    (passthroughCmd "ps" [] (fun _ => 2)).2 = Except.ok ()
    ∧ exitsNonZero (restore envNoSnap ⟨[]⟩).2 = true
    ∧ exitsNonZero (apply rcDownFails).2 = true
    ∧ exitsNonZero (restore envStaging ⟨[("db", dbSvc)]⟩).2 = false
    ∧ exitsNonZero (backup envC9).2 = true := by
  refine ⟨process_exit_codes_amended.1 "ps" [] (fun _ => 2),
    process_exit_codes_amended.2.1 envNoSnap ⟨[]⟩ rfl, ?_, ?_, ?_⟩
  · cases hb : exitsNonZero (apply rcDownFails).2 with
    | false => exact absurd ((process_exit_codes_amended.2.2.1 rcDownFails).mp hb) (by decide)
    | true => rfl
  · exact (process_exit_codes_amended.2.2.2.1 envStaging ⟨[("db", dbSvc)]⟩ rfl).mpr
      (fun _ _ _ _ _ => ⟨rfl, rfl⟩)
  · cases hb : exitsNonZero (backup envC9).2 with
    | false =>
      have hrc := (process_exit_codes_amended.2.2.2.2 envC9 envC9.cfg.services rfl).mp hb
      exact absurd (hrc "db" { image := "pg", labels := [(backupCmdKey, "pg_dumpall")] }
        (by decide) "pg_dumpall" (by decide)) (by decide)
    | true => rfl

end Compoctl
